import Mathlib

/-!
Verification development for the Discord Solana-address scanner
(content script `part_001`, helper scripts `part_000`, `popup.js`).

The scanner watches a stream of chat messages, buffers them in a sliding
window and a time-bounded buffer, extracts candidate token addresses
(direct regex matches, fragment+suffix recombination, cross-message
combination, AI-assisted reconstruction with retries), verifies candidates
against three external providers raced under per-provider timeouts, and
forwards verified addresses downstream (to the Bloom bot) at most once.

The definitions below are a shallow embedding of that source: pure string
and list functions mirror the source functions line by line; external
network calls are abstracted as explicit outcome parameters; the mutable
globals (`messageWindow`, `RECENT_MESSAGES_BUFFER`, `processedMessageIds`,
`bloomSentAddresses`, `aiPrompt`) become explicit state threaded through
the functions that mutate them.
-/

/-- Canonical base58-like alphabet of the scanner,
the character class `[1-9A-HJ-NP-Za-km-z]` used throughout `part_001`
(it excludes the visually ambiguous `0`, `O`, `I`, `l`). -/
def isBase58Char (c : Char) : Bool :=
  ('1' ≤ c && c ≤ '9') ||
  ('A' ≤ c && c ≤ 'H') ||
  ('J' ≤ c && c ≤ 'N') ||
  ('P' ≤ c && c ≤ 'Z') ||
  ('a' ≤ c && c ≤ 'k') ||
  ('m' ≤ c && c ≤ 'z')

/-- JavaScript regex word character (`\w`, the class deciding `\b`
boundaries): `[A-Za-z0-9_]`. -/
def isWordChar (c : Char) : Bool :=
  ('A' ≤ c && c ≤ 'Z') || ('a' ≤ c && c ≤ 'z') || ('0' ≤ c && c ≤ '9') || c = '_'

/-- JavaScript regex digit (`\d`): `[0-9]`. -/
def isJsDigit (c : Char) : Bool :=
  '0' ≤ c && c ≤ '9'

/-- JavaScript regex whitespace (`\s`), also the class trimmed by
`String.prototype.trim`. -/
def isJsSpace (c : Char) : Bool :=
  c = ' ' || c = '\t' || c = '\n' || c = '\r' ||
  c.val = 0x0B || c.val = 0x0C || c.val = 0xA0 || c.val = 0x1680 ||
  (0x2000 ≤ c.val && c.val ≤ 0x200A) ||
  c.val = 0x2028 || c.val = 0x2029 || c.val = 0x202F ||
  c.val = 0x205F || c.val = 0x3000 || c.val = 0xFEFF

/-- The full-anchored test `/^[1-9A-HJ-NP-Za-km-z]+$/.test(address)`
from `fullTokenVerification` (part_001 line 431): nonempty and every
character in the canonical alphabet. -/
def base58FullMatch (s : String) : Bool :=
  !s.data.isEmpty && s.data.all isBase58Char

/-- The address-format validation performed at the top of
`fullTokenVerification` (part_001 lines 428–433): the address is rejected
when it is empty/falsy, shorter than 32, longer than 44, or fails the
anchored alphabet test; it is accepted otherwise. `true` means the format
checks pass and provider verification proceeds. -/
def isValidAddress (address : String) : Bool :=
  !(address == "" || address.length < 32 || address.length > 44) &&
  base58FullMatch address

/-- C1: the address-format validator accepts exactly the strings `s` with
`32 ≤ len(s) ≤ 44` whose every character is in the canonical alphabet
`{1-9, A-H, J-N, P-Z, a-k, m-z}`; every other string (wrong length, or any
character outside the class — in particular `0`, `O`, `I`, `l`) is
rejected. -/
theorem c1_format_validator_exact (s : String) :
    isValidAddress s = true ↔
      (32 ≤ s.length ∧ s.length ≤ 44 ∧ ∀ c ∈ s.data, isBase58Char c = true) := by
  unfold isValidAddress base58FullMatch
  simp only [Bool.and_eq_true, Bool.not_eq_true', Bool.or_eq_false_iff,
    beq_eq_false_iff_ne, ne_eq, decide_eq_false_iff_not, Nat.not_lt,
    not_lt, List.all_eq_true, List.isEmpty_eq_false, Bool.not_eq_true]
  constructor
  · rintro ⟨⟨⟨-, h32⟩, h44⟩, -, hall⟩
    exact ⟨h32, h44, hall⟩
  · rintro ⟨h32, h44, hall⟩
    have hne : s.data ≠ [] := by
      intro hnil
      have : s.length = 0 := by simp [String.length, hnil]
      omega
    refine ⟨⟨⟨?_, h32⟩, h44⟩, hne, hall⟩
    intro h
    subst h
    simp [String.length] at h32

/-- Closed evaluation of the validator at the boundary cases named by C1:
a valid 32-character and a valid 44-character string are accepted, while
length 31, length 45, and strings containing `0`, `O`, `I` or `l` are
rejected. -/
theorem c1_format_validator_boundary :
    isValidAddress "4k3Dyjzvzp8eMZWUXbBCjEvwSkkk59S5iCNLY3QrkX6R" = true ∧
    isValidAddress "11111111111111111111111111111111" = true ∧
    isValidAddress "1111111111111111111111111111111" = false ∧
    isValidAddress "111111111111111111111111111111111111111111111" = false ∧
    isValidAddress "0k3Dyjzvzp8eMZWUXbBCjEvwSkkk59S5iCNLY3QrkX6R" = false ∧
    isValidAddress "Ok3Dyjzvzp8eMZWUXbBCjEvwSkkk59S5iCNLY3QrkX6R" = false ∧
    isValidAddress "Ik3Dyjzvzp8eMZWUXbBCjEvwSkkk59S5iCNLY3QrkX6R" = false ∧
    isValidAddress "lk3Dyjzvzp8eMZWUXbBCjEvwSkkk59S5iCNLY3QrkX6R" = false := by
  decide

/-! ## Verification coordinator (multi-provider race)

`verifyTokenWithMultipleAPIs` (part_001 lines 393–421) races three
providers — Jupiter quote (8s timeout), Birdeye (8s), Jupiter token
registry (5s) — through `verifyWithTimeout` (lines 266–290) and
`Promise.any`. A provider call is abstracted as a `ProviderOutcome`:
either its fetch settles after `t` milliseconds with a result, or it
never settles within any horizon. -/

/-- The duck-typed verification result shape
`{verified, name?, platform?, reason?}` returned by every provider and by
the coordinator. -/
structure VerificationResult where
  verified : Bool
  name : Option String := none
  platform : Option String := none
  reason : Option String := none
deriving DecidableEq, Repr

/-- Abstracted behaviour of one provider call for a fixed address:
it resolves after `t` ms with result `r`, or never resolves. -/
inductive ProviderOutcome where
  | resolves (t : Nat) (r : VerificationResult)
  | never
deriving DecidableEq, Repr

/-- A settled promise as produced by `verifyWithTimeout`: fulfilled at
time `t` with a result, or rejected at time `t`. -/
inductive Settled where
  | fulfilled (t : Nat) (r : VerificationResult)
  | rejected (t : Nat)
deriving DecidableEq, Repr

/-- `verifyWithTimeout(verifyFn, address, timeout)` (part_001 lines
266–290): rejects after `timeout` ms if the provider has not settled by
then; when the provider settles first, the promise fulfills with the
result if `result.verified` and rejects otherwise. -/
def verifyWithTimeout (o : ProviderOutcome) (timeout : Nat) : Settled :=
  match o with
  | .never => .rejected timeout
  | .resolves t r =>
    if t < timeout then
      if r.verified then .fulfilled t r else .rejected t
    else .rejected timeout

/-- The first promise (earliest settle time, earlier argument order
breaking ties) in the list to fulfill, with its time — the fulfillment
`Promise.any` resolves with, or `none` when every promise rejects. -/
def pickEarlier (p : Nat × VerificationResult) :
    Option (Nat × VerificationResult) → Nat × VerificationResult
  | none => p
  | some q => if q.1 < p.1 then q else p

def firstFulfilled : List Settled → Option (Nat × VerificationResult)
  | [] => none
  | .rejected _ :: rest => firstFulfilled rest
  | .fulfilled t r :: rest => some (pickEarlier (t, r) (firstFulfilled rest))

/-- The aggregate result `verifyTokenWithMultipleAPIs` returns when
`Promise.any` throws because every provider lost the race
(part_001 line 420). -/
def allApisFailed : VerificationResult :=
  { verified := false, reason := some "Failed verification with all APIs" }

/-- The race entries of `verifyTokenWithMultipleAPIs` (part_001 lines
397–406): Jupiter with an 8000 ms timeout, Birdeye with 8000 ms, and the
registry lookup with 5000 ms. -/
def raceEntries (jup bird reg : ProviderOutcome) : List Settled :=
  [verifyWithTimeout jup 8000, verifyWithTimeout bird 8000,
   verifyWithTimeout reg 5000]

/-- `verifyTokenWithMultipleAPIs(address)` (part_001 lines 393–421):
`Promise.any` over the three timed providers; the first fulfilled
result is returned, and if all reject the catch branch returns the
aggregate `allApisFailed` result instead of throwing. -/
def verifyTokenWithMultipleAPIs (jup bird reg : ProviderOutcome) : VerificationResult :=
  match firstFulfilled (raceEntries jup bird reg) with
  | some (_, r) => r
  | none => allApisFailed

/-- `fullTokenVerification(address)` (part_001 lines 427–437) with the
provider behaviours passed explicitly. Returns the verification result
together with the number of provider network calls issued: malformed
addresses fail fast before any provider is invoked (0 calls), otherwise
all three providers are started (3 calls). -/
def fullTokenVerification (address : String) (jup bird reg : ProviderOutcome) :
    VerificationResult × Nat :=
  if address == "" || address.length < 32 || address.length > 44 then
    ({ verified := false, reason := some "Invalid address format" }, 0)
  else if !base58FullMatch address then
    ({ verified := false, reason := some "Invalid address characters" }, 0)
  else
    (verifyTokenWithMultipleAPIs jup bird reg, 3)

/-- A provider outcome that loses the race against its timeout: it never
settles, settles too late, or settles with `verified=false`. -/
def losesRace (o : ProviderOutcome) (timeout : Nat) : Prop :=
  match o with
  | .never => True
  | .resolves t r => timeout ≤ t ∨ r.verified = false

lemma verifyWithTimeout_rejected_of_losesRace (o : ProviderOutcome) (timeout : Nat)
    (h : losesRace o timeout) : ∃ t, verifyWithTimeout o timeout = .rejected t := by
  cases o with
  | never => exact ⟨timeout, rfl⟩
  | resolves t r =>
    simp only [verifyWithTimeout]
    rcases h with h | h
    · rw [if_neg (by omega)]; exact ⟨timeout, rfl⟩
    · by_cases ht : t < timeout
      · rw [if_pos ht, h]; exact ⟨t, by simp⟩
      · rw [if_neg ht]; exact ⟨timeout, rfl⟩

lemma firstFulfilled_eq_none (ps : List Settled)
    (h : ∀ s ∈ ps, ∃ t, s = .rejected t) : firstFulfilled ps = none := by
  induction ps with
  | nil => rfl
  | cons s rest ih =>
    obtain ⟨t, ht⟩ := h s (List.mem_cons_self s rest)
    subst ht
    exact ih (fun x hx => h x (List.mem_cons_of_mem _ hx))

lemma firstFulfilled_mem (ps : List Settled) (t : Nat) (r : VerificationResult)
    (h : firstFulfilled ps = some (t, r)) :
    ∃ i, ps.get? i = some (.fulfilled t r) := by
  induction ps with
  | nil => simp [firstFulfilled] at h
  | cons s rest ih =>
    cases s with
    | rejected t0 =>
      obtain ⟨i, hi⟩ := ih h
      exact ⟨i + 1, hi⟩
    | fulfilled t0 r0 =>
      rw [firstFulfilled] at h
      cases hrest : firstFulfilled rest with
      | none =>
        rw [hrest] at h
        simp only [pickEarlier, Option.some.injEq, Prod.mk.injEq] at h
        exact ⟨0, by simp [h.1, h.2]⟩
      | some p =>
        rw [hrest] at h
        obtain ⟨t2, r2⟩ := p
        by_cases hlt : t2 < t0
        · simp only [pickEarlier, if_pos hlt] at h
          obtain ⟨i, hi⟩ := ih (by rw [hrest, h])
          exact ⟨i + 1, hi⟩
        · simp only [pickEarlier, if_neg hlt, Option.some.injEq, Prod.mk.injEq] at h
          exact ⟨0, by simp [h.1, h.2]⟩

lemma firstFulfilled_of_strict_min (ps : List Settled) (i : Nat) (t : Nat)
    (r : VerificationResult) (hi : ps.get? i = some (.fulfilled t r))
    (hmin : ∀ j t2 r2, j ≠ i → ps.get? j = some (.fulfilled t2 r2) → t < t2) :
    firstFulfilled ps = some (t, r) := by
  induction ps generalizing i with
  | nil => simp at hi
  | cons s rest ih =>
    cases i with
    | zero =>
      simp only [List.get?] at hi
      injection hi with hi
      subst hi
      rw [firstFulfilled]
      cases hrest : firstFulfilled rest with
      | none => simp [pickEarlier]
      | some p =>
        obtain ⟨t2, r2⟩ := p
        obtain ⟨j, hj⟩ := firstFulfilled_mem rest t2 r2 hrest
        have hlt : t < t2 := hmin (j + 1) t2 r2 (by omega) hj
        have hnlt : ¬t2 < t := by omega
        simp [pickEarlier, hnlt]
    | succ i' =>
      simp only [List.get?] at hi
      have hrest : firstFulfilled rest = some (t, r) := by
        refine ih i' hi (fun j t2 r2 hj hgj => ?_)
        exact hmin (j + 1) t2 r2 (by omega) hgj
      cases s with
      | rejected t0 => rw [firstFulfilled]; exact hrest
      | fulfilled t0 r0 =>
        have ht0 : t < t0 := hmin 0 t0 r0 (by omega) rfl
        rw [firstFulfilled, hrest]
        simp [pickEarlier, ht0]

/-- C2 counterexample: when every provider loses the race, the
coordinator's aggregate result carries the reason
`"Failed verification with all APIs"`, not `"no provider confirmed"` as
the claim states — evaluated at the concrete input where all three
providers never settle. -/
theorem c2_aggregate_reason_counterexample :
    ¬(verifyTokenWithMultipleAPIs .never .never .never =
      { verified := false, reason := some "no provider confirmed" }) := by
  decide

/-- C2 (amended): verification races the three providers under
per-provider timeouts (8000 ms for Jupiter and Birdeye, 5000 ms for the
registry lookup). First part: whenever one of the three timed race
entries fulfills (its provider resolved with `verified=true` inside its
timeout) strictly before any other entry fulfills, the race returns that
provider's result. Second part: when every provider times out or returns
`verified=false`, the coordinator returns the aggregate result
`{verified: false, reason: "Failed verification with all APIs"}` rather
than throwing. -/
theorem c2_race_first_verified_wins_and_aggregate_failure :
    (∀ (jup bird reg : ProviderOutcome) (i t : Nat) (r : VerificationResult),
      (raceEntries jup bird reg).get? i = some (.fulfilled t r) →
      (∀ j t2 r2, j ≠ i →
        (raceEntries jup bird reg).get? j = some (.fulfilled t2 r2) → t < t2) →
      verifyTokenWithMultipleAPIs jup bird reg = r) ∧
    (∀ jup bird reg : ProviderOutcome,
      losesRace jup 8000 → losesRace bird 8000 → losesRace reg 5000 →
      verifyTokenWithMultipleAPIs jup bird reg = allApisFailed) := by
  constructor
  · intro jup bird reg i t r hi hmin
    unfold verifyTokenWithMultipleAPIs
    rw [firstFulfilled_of_strict_min (raceEntries jup bird reg) i t r hi hmin]
  · intro jup bird reg hjup hbird hreg
    unfold verifyTokenWithMultipleAPIs
    obtain ⟨t1, h1⟩ := verifyWithTimeout_rejected_of_losesRace jup 8000 hjup
    obtain ⟨t2, h2⟩ := verifyWithTimeout_rejected_of_losesRace bird 8000 hbird
    obtain ⟨t3, h3⟩ := verifyWithTimeout_rejected_of_losesRace reg 5000 hreg
    rw [firstFulfilled_eq_none]
    intro s hs
    unfold raceEntries at hs
    rw [h1, h2, h3] at hs
    simp only [List.mem_cons, List.not_mem_nil, or_false] at hs
    rcases hs with rfl | rfl | rfl
    · exact ⟨t1, rfl⟩
    · exact ⟨t2, rfl⟩
    · exact ⟨t3, rfl⟩

/-- Witness for C2 (amended): with Birdeye resolving verified after
1000 ms and the other two providers never settling, the race returns
Birdeye's result; with all three never settling, it returns the
aggregate failure. -/
theorem c2_race_witness :
    verifyTokenWithMultipleAPIs .never
      (.resolves 1000 { verified := true, name := some "TOK", platform := some "Birdeye" })
      .never =
      { verified := true, name := some "TOK", platform := some "Birdeye" } ∧
    verifyTokenWithMultipleAPIs .never .never .never = allApisFailed := by
  constructor
  · exact c2_race_first_verified_wins_and_aggregate_failure.1 _ _ _ 1 1000 _
      (by decide)
      (by intro j t2 r2 hj hgj
          rcases j with _ | _ | _ | j <;> simp_all [raceEntries, verifyWithTimeout])
  · exact c2_race_first_verified_wins_and_aggregate_failure.2 .never .never .never
      trivial trivial trivial

/-- C3 counterexample: a malformed address (31 characters) yields the
reason `"Invalid address format"`, not `"invalid format"` as the claim
states. -/
theorem c3_invalid_format_reason_counterexample :
    ¬((fullTokenVerification "1111111111111111111111111111111" .never .never .never).1 =
      { verified := false, reason := some "invalid format" }) := by
  decide

/-- C3 (amended): for every input string that is malformed (length
outside 32–44 or containing a character outside the canonical alphabet),
`fullTokenVerification` returns `verified=false` with reason
`"Invalid address format"` (length/empty violation) or
`"Invalid address characters"` (alphabet violation), and issues zero
provider network calls. -/
theorem c3_malformed_fails_fast_no_network (s : String)
    (jup bird reg : ProviderOutcome)
    (h : ¬(32 ≤ s.length ∧ s.length ≤ 44 ∧ ∀ c ∈ s.data, isBase58Char c = true)) :
    (fullTokenVerification s jup bird reg).1.verified = false ∧
    ((fullTokenVerification s jup bird reg).1.reason = some "Invalid address format" ∨
     (fullTokenVerification s jup bird reg).1.reason = some "Invalid address characters") ∧
    (fullTokenVerification s jup bird reg).2 = 0 := by
  have hv : isValidAddress s = false := by
    cases hval : isValidAddress s with
    | false => rfl
    | true => exact absurd ((c1_format_validator_exact s).mp hval) h
  unfold isValidAddress at hv
  rw [Bool.and_eq_false_iff] at hv
  unfold fullTokenVerification
  rcases hv with hv | hv
  · rw [Bool.not_eq_false'] at hv
    rw [if_pos hv]
    exact ⟨rfl, Or.inl rfl, rfl⟩
  · by_cases hlen : (s == "" || s.length < 32 || s.length > 44) = true
    · rw [if_pos hlen]
      exact ⟨rfl, Or.inl rfl, rfl⟩
    · rw [if_neg hlen, if_pos (by rw [hv]; rfl)]
      exact ⟨rfl, Or.inr rfl, rfl⟩

/-- Witness for C3 (amended): evaluated at the 31-character malformed
address with all providers never settling. -/
theorem c3_malformed_witness :
    (fullTokenVerification "1111111111111111111111111111111" .never .never .never).1.verified
      = false ∧
    ((fullTokenVerification "1111111111111111111111111111111" .never .never .never).1.reason
      = some "Invalid address format" ∨
     (fullTokenVerification "1111111111111111111111111111111" .never .never .never).1.reason
      = some "Invalid address characters") ∧
    (fullTokenVerification "1111111111111111111111111111111" .never .never .never).2 = 0 :=
  c3_malformed_fails_fast_no_network "1111111111111111111111111111111" .never .never .never
    (by decide)

/-! ## Dedup & dispatch gate (`bloomSentAddresses` / `sendToBloomBot`)

`sendToBloomBot` (part_001 lines 444–482) forwards an address to the
downstream Bloom bot via `chrome.runtime.sendMessage` unless the address
is already in the process-wide `bloomSentAddresses` set (line 485); on the
first call it adds the address to the set and forwards. The set is
modelled as a list of addresses, and the returned `Bool` records whether
the forward message was dispatched. -/

def sendToBloomBot (bloomSent : List String) (address : String) :
    List String × Bool :=
  if address ∈ bloomSent then (bloomSent, false)
  else (address :: bloomSent, true)

/-- A whole process lifetime of dispatch attempts: run `sendToBloomBot`
over a sequence of requested addresses (every call site — auto-send in
`processAddress` line 782, the per-address button, re-ingested duplicate
messages — goes through the same gate), recording for each call whether
it forwarded. -/
def dispatchRun (bloomSent : List String) : List String → List (String × Bool)
  | [] => []
  | a :: rest =>
    (a, (sendToBloomBot bloomSent a).2) ::
      dispatchRun (sendToBloomBot bloomSent a).1 rest

/-- How many calls in a dispatch run actually forwarded address `a`. -/
def forwardCount (calls : List (String × Bool)) (a : String) : Nat :=
  calls.countP (fun p => p.1 == a && p.2)

lemma sendToBloomBot_mem_preserved (sent : List String) (b x : String)
    (h : x ∈ sent) : x ∈ (sendToBloomBot sent b).1 := by
  unfold sendToBloomBot
  by_cases hb : b ∈ sent
  · rw [if_pos hb]; exact h
  · rw [if_neg hb]; exact List.mem_cons_of_mem b h

lemma forwardCount_zero_of_mem (sent : List String) (calls : List String)
    (a : String) (h : a ∈ sent) : forwardCount (dispatchRun sent calls) a = 0 := by
  induction calls generalizing sent with
  | nil => rfl
  | cons c rest ih =>
    unfold dispatchRun forwardCount
    rw [List.countP_cons]
    have hcount := ih (sendToBloomBot sent c).1 (sendToBloomBot_mem_preserved sent c a h)
    unfold forwardCount at hcount
    rw [hcount]
    by_cases hc : c ∈ sent
    · simp [sendToBloomBot, hc]
    · have hca : ¬(c == a && true) = true := by
        intro hca
        rw [Bool.and_true, beq_iff_eq] at hca
        exact hc (hca ▸ h)
      simp only [sendToBloomBot, if_neg hc]
      simp [hca]

lemma forwardCount_le_one (sent : List String) (calls : List String) (a : String) :
    forwardCount (dispatchRun sent calls) a ≤ 1 := by
  induction calls generalizing sent with
  | nil => exact Nat.zero_le 1
  | cons c rest ih =>
    unfold dispatchRun forwardCount
    rw [List.countP_cons]
    by_cases hc : c ∈ sent
    · have hrest := ih sent
      unfold forwardCount at hrest
      simp only [sendToBloomBot, if_pos hc, Bool.and_false, if_false]
      simpa using hrest
    · simp only [sendToBloomBot, if_neg hc]
      by_cases hca : c = a
      · subst hca
        have h0 := forwardCount_zero_of_mem (c :: sent) rest c (List.mem_cons_self c sent)
        unfold forwardCount at h0
        simp [h0]
      · have hrest := ih (c :: sent)
        unfold forwardCount at hrest
        have hne : (c == a && true) = false := by simp [hca]
        simp only [hne, if_false]
        simpa using hrest

/-- C4: downstream forwarding happens at most once per address for the
process lifetime. The gate permits forwarding (returns `true` and adds
the address to `bloomSentAddresses`) only when the address has not been
sent; every later call for the same address is a no-op returning `false`
with the state unchanged; and over any sequence of dispatch calls —
including those re-triggered by re-ingesting an identical message — each
address is forwarded at most once. -/
theorem c4_at_most_once_dispatch :
    (∀ (sent : List String) (a : String), a ∉ sent →
      sendToBloomBot sent a = (a :: sent, true) ∧ a ∈ (sendToBloomBot sent a).1) ∧
    (∀ (sent : List String) (a : String), a ∈ sent →
      sendToBloomBot sent a = (sent, false)) ∧
    (∀ (calls : List String) (a : String),
      forwardCount (dispatchRun [] calls) a ≤ 1) := by
  refine ⟨fun sent a ha => ?_, fun sent a ha => ?_, fun calls a => ?_⟩
  · constructor
    · unfold sendToBloomBot; rw [if_neg ha]
    · unfold sendToBloomBot; rw [if_neg ha]; exact List.mem_cons_self a sent
  · unfold sendToBloomBot; rw [if_pos ha]
  · exact forwardCount_le_one [] calls a

/-- Witness for C4: a concrete run where the same address is requested
three times (the third after another address): it is forwarded exactly
once, the second call is a state-preserving `false`, and the first call
flips the gate. -/
theorem c4_at_most_once_dispatch_witness :
    (sendToBloomBot [] "addr1" = (["addr1"], true) ∧
      "addr1" ∈ (sendToBloomBot [] "addr1").1) ∧
    sendToBloomBot ["addr1"] "addr1" = (["addr1"], false) ∧
    forwardCount (dispatchRun [] ["addr1", "addr1", "addr2", "addr1"]) "addr1" ≤ 1 := by
  refine ⟨c4_at_most_once_dispatch.1 [] "addr1" (by decide),
    c4_at_most_once_dispatch.2.1 ["addr1"] "addr1" (by decide),
    c4_at_most_once_dispatch.2.2 ["addr1", "addr1", "addr2", "addr1"] "addr1"⟩

/-! ## Sliding window (`messageWindow`)

`checkForSolanaAddresses` inserts every surviving message at the front of
`messageWindow` and pops the back when the length exceeds
`MAX_WINDOW_SIZE = 10` (part_001 lines 18–19 and 959–962). -/

/-- One insertion into the sliding window: `unshift` then `pop` on
overflow. -/
def insertWindow {α : Type} (w : List α) (m : α) : List α :=
  if (m :: w).length > 10 then (m :: w).dropLast else m :: w

/-- The window contents after ingesting `msgs` in arrival order,
starting from the empty window. -/
def windowAfter {α : Type} (msgs : List α) : List α :=
  msgs.foldl insertWindow []

lemma insertWindow_eq_take {α : Type} (w : List α) (m : α) (h : w.length ≤ 10) :
    insertWindow w m = (m :: w).take 10 := by
  unfold insertWindow
  by_cases hlen : (m :: w).length > 10
  · rw [if_pos hlen]
    have h11 : (m :: w).length = 11 := by simp at hlen ⊢; omega
    rw [List.dropLast_eq_take, h11]
  · rw [if_neg hlen]
    rw [List.take_of_length_le (by simp at hlen ⊢; omega)]

lemma take_append_take {α : Type} (A B : List α) (n : Nat) :
    (A ++ B.take n).take n = (A ++ B).take n := by
  rw [List.take_append_eq_append_take, List.take_append_eq_append_take,
    List.take_take]
  congr 2
  omega

lemma windowAfter_foldl {α : Type} (msgs : List α) (acc : List α)
    (hacc : acc.length ≤ 10) :
    msgs.foldl insertWindow acc = (msgs.reverse ++ acc).take 10 := by
  induction msgs generalizing acc with
  | nil => simp [List.take_of_length_le hacc]
  | cons x rest ih =>
    rw [List.foldl_cons, insertWindow_eq_take acc x hacc]
    rw [ih ((x :: acc).take 10) (by simp)]
    rw [take_append_take]
    simp

/-- C8: sliding-window invariant. After inserting `K > 10` messages the
window is exactly the 10 most recently inserted messages, newest first
(`msgs.reverse.take 10`), so its length is exactly 10; the window length
never exceeds 10 regardless of how many messages were inserted; and an
insertion into a full window evicts exactly the oldest entry (the last
element, since the window is ordered newest first). -/
theorem c8_sliding_window_invariant {α : Type} :
    (∀ msgs : List α, 10 < msgs.length →
      windowAfter msgs = msgs.reverse.take 10 ∧ (windowAfter msgs).length = 10) ∧
    (∀ msgs : List α, (windowAfter msgs).length ≤ 10) ∧
    (∀ (w : List α) (m : α), w.length = 10 →
      insertWindow w m = m :: w.dropLast) := by
  have hafter : ∀ msgs : List α, windowAfter msgs = msgs.reverse.take 10 := by
    intro msgs
    unfold windowAfter
    rw [windowAfter_foldl msgs [] (by simp)]
    simp
  refine ⟨fun msgs hK => ⟨hafter msgs, ?_⟩, fun msgs => ?_, fun w m hw => ?_⟩
  · rw [hafter msgs, List.length_take, List.length_reverse]
    omega
  · rw [hafter msgs, List.length_take, List.length_reverse]
    omega
  · unfold insertWindow
    rw [if_pos (by simp [hw])]
    rw [List.dropLast_cons_of_ne_nil (by intro h; rw [h] at hw; simp at hw)]

/-- Witness for C8: inserting the 12 messages `0,…,11` leaves exactly
`[11, 10, …, 2]` (the 10 most recent, newest first) in the window, the
window length never exceeded 10, and inserting into the full window
`[11,…,2]` evicts the oldest entry `2`. -/
theorem c8_sliding_window_witness :
    (windowAfter [0, 1, 2, 3, 4, 5, 6, 7, 8, 9, 10, 11] =
        [11, 10, 9, 8, 7, 6, 5, 4, 3, 2] ∧
      (windowAfter [0, 1, 2, 3, 4, 5, 6, 7, 8, 9, 10, 11]).length = 10) ∧
    (windowAfter [0, 1, 2, 3, 4, 5, 6, 7, 8, 9, 10, 11]).length ≤ 10 ∧
    insertWindow [11, 10, 9, 8, 7, 6, 5, 4, 3, 2] 12 =
      [12, 11, 10, 9, 8, 7, 6, 5, 4, 3] := by
  refine ⟨?_, c8_sliding_window_invariant.2.1 _, ?_⟩
  · have h := c8_sliding_window_invariant.1 [0, 1, 2, 3, 4, 5, 6, 7, 8, 9, 10, 11]
      (by decide)
    exact ⟨h.1.trans (by decide), h.2⟩
  · exact (c8_sliding_window_invariant.2.2 [11, 10, 9, 8, 7, 6, 5, 4, 3, 2] 12
      (by decide)).trans (by decide)

/-! ## Direct cross-message combination
(`checkMessageWindowForAddresses`, part_001 lines 791–815)

Case 1 of the window scan: when the window holds at least two messages,
the previous message (if shorter than 20 characters) is concatenated
with the current message (if shorter than 40 characters); if the result
has valid length and alphabet it is processed as a cross-message
candidate and the AI window scan is skipped. -/

/-- The candidate emitted by the direct-combination case, if any. -/
def directCombination (previousMsg currentMsg : String) : Option String :=
  if previousMsg.length < 20 && currentMsg.length < 40 then
    if 32 ≤ (previousMsg ++ currentMsg).length &&
        (previousMsg ++ currentMsg).length ≤ 44 &&
        (previousMsg ++ currentMsg).data.all isBase58Char then
      some (previousMsg ++ currentMsg)
    else none
  else none

/-- C5 counterexample: the claim's concrete example — previous message
`"abc"` (length 3) plus a current message of 41 valid-alphabet characters
— emits no candidate, because the current message fails the
`currentMsg.length < 40` guard (part_001 line 802) even though the
combined length is 44. -/
theorem c5_direct_combination_counterexample :
    directCombination "abc" "defghjkmnpqrstuvwxyz123456789ABCDEFGHJKMN" = none ∧
    ("abc" ++ "defghjkmnpqrstuvwxyz123456789ABCDEFGHJKMN").length = 44 ∧
    (∀ c ∈ ("abc" ++ "defghjkmnpqrstuvwxyz123456789ABCDEFGHJKMN").data,
      isBase58Char c = true) := by
  refine ⟨by decide, by decide, by decide⟩

/-- C5 (amended): whenever the previous message is shorter than 20
characters, the current message is shorter than 40 characters, and their
concatenation has valid length (32–44) and alphabet, the
direct-combination case emits exactly that concatenation as the
cross-message candidate; and whenever the concatenation has length 45,
no candidate is emitted. (The claim's example of a 41-character current
message is outside the `< 40` guard and emits nothing; a 39-character
current message after a 5-character previous message does yield an
emitted 44-character candidate.) -/
theorem c5_direct_combination
    (prev cur : String) :
    (prev.length < 20 → cur.length < 40 →
      32 ≤ (prev ++ cur).length → (prev ++ cur).length ≤ 44 →
      (∀ c ∈ (prev ++ cur).data, isBase58Char c = true) →
      directCombination prev cur = some (prev ++ cur)) ∧
    ((prev ++ cur).length = 45 → directCombination prev cur = none) := by
  constructor
  · intro h20 h40 h32 h44 hall
    unfold directCombination
    rw [if_pos (by simp [h20, h40]),
      if_pos (by simp only [Bool.and_eq_true, decide_eq_true_eq, List.all_eq_true]
                 exact ⟨⟨h32, h44⟩, hall⟩)]
  · intro h45
    unfold directCombination
    by_cases hlt : (prev.length < 20 && cur.length < 40) = true
    · rw [if_pos hlt, if_neg (by simp only [Bool.and_eq_true, decide_eq_true_eq]
                                 intro h
                                 omega)]
    · rw [if_neg hlt]

/-- Witness for C5 (amended): previous message `"abcde"` (length 5) plus
a current message of 39 valid-alphabet characters yields the emitted
44-character candidate, while a 40-character current message (combined
length 45) yields no candidate. -/
theorem c5_direct_combination_witness :
    directCombination "abcde" "fghjkmnpqrstuvwxyz123456789ABCDEFGHJKMN" =
      some "abcdefghjkmnpqrstuvwxyz123456789ABCDEFGHJKMN" ∧
    directCombination "abcde" "fghjkmnpqrstuvwxyz123456789ABCDEFGHJKMNP" = none := by
  constructor
  · exact ((c5_direct_combination "abcde" "fghjkmnpqrstuvwxyz123456789ABCDEFGHJKMN").1
      (by decide) (by decide) (by decide) (by decide) (by decide)).trans (by decide)
  · exact (c5_direct_combination "abcde" "fghjkmnpqrstuvwxyz123456789ABCDEFGHJKMNP").2
      (by decide)

/-! ## Regex scanners

Executable models of the JavaScript regex scans used by the extractor.
Scanners that advance through the input are written with an explicit
fuel argument initialised to the input length; every successful match
consumes at least one character, so the fuel never runs out and the
scan is exactly the JS left-to-right `lastIndex` traversal. -/

/-- `\b` holds before the current position (the matched classes start
with word characters, so the previous character must be absent or a
non-word character). -/
def leftBoundary : Option Char → Bool
  | none => true
  | some q => !isWordChar q

/-- `\b` holds after the match (the matched classes end with word
characters, so the next character must be absent or non-word). -/
def rightBoundary : List Char → Bool
  | [] => true
  | d :: _ => !isWordChar d

/-- Maximal runs of characters satisfying `p`, left to right. -/
def runsOfFuel (p : Char → Bool) : Nat → List Char → List (List Char)
  | 0, _ => []
  | _, [] => []
  | fuel + 1, c :: cs =>
    if p c then
      (c :: cs).takeWhile p :: runsOfFuel p fuel ((c :: cs).dropWhile p)
    else runsOfFuel p fuel cs

def runsOf (p : Char → Bool) (l : List Char) : List (List Char) :=
  runsOfFuel p l.length l

/-- Global scan for `/\b[1-9A-HJ-NP-Za-km-z]{lo,hi}\b/g`: a maximal
alphabet run matches exactly when its length is within bounds and both
neighbours are absent or non-word (positions inside a run never satisfy
`\b`, so over-long runs and runs glued to word characters such as `0`
match nothing). -/
def boundedRunsFuel (lo hi : Nat) : Nat → Option Char → List Char → List (List Char)
  | 0, _, _ => []
  | _, _, [] => []
  | fuel + 1, prev, c :: cs =>
    if isBase58Char c && leftBoundary prev then
      (if lo ≤ ((c :: cs).takeWhile isBase58Char).length &&
          ((c :: cs).takeWhile isBase58Char).length ≤ hi &&
          rightBoundary ((c :: cs).dropWhile isBase58Char) then
        [(c :: cs).takeWhile isBase58Char]
      else []) ++
        boundedRunsFuel lo hi fuel ((c :: cs).takeWhile isBase58Char).getLast?
          ((c :: cs).dropWhile isBase58Char)
    else boundedRunsFuel lo hi fuel (some c) cs

def boundedRuns (lo hi : Nat) (l : List Char) : List (List Char) :=
  boundedRunsFuel lo hi l.length none l

/-- Global scan for `/[1-9A-HJ-NP-Za-km-z]{5,}/g` used by
`checkSequentialMessages` (part_001 line 885): maximal alphabet runs of
length at least 5, taken whole. -/
def frags5 (s : String) : List String :=
  ((runsOf isBase58Char s.data).filter (fun r => 5 ≤ r.length)).map
    (fun r => String.mk r)

/-- One maximal alphabet run chunked by `/[1-9A-HJ-NP-Za-km-z]{5,10}/g`:
greedy 10-character slices while at least 5 characters remain. -/
def chunkRunFuel : Nat → List Char → List (List Char)
  | 0, _ => []
  | fuel + 1, l =>
    if 5 ≤ l.length then l.take 10 :: chunkRunFuel fuel (l.drop 10) else []

/-- Global scan for `/[1-9A-HJ-NP-Za-km-z]{5,10}/g` used to collect
partial fragments for the AI escalation prompt (part_001 line 1050). -/
def partials510 (s : String) : List String :=
  ((runsOf isBase58Char s.data).flatMap (fun r => chunkRunFuel r.length r)).map
    (fun r => String.mk r)

/-- Try to match `/CA:?\s*([1-9A-HJ-NP-Za-km-z]{3,44})/` exactly at the
head of the input; on success return the address part (the matched
alphabet characters, greedily at most 44, after stripping the `CA:`
marker and whitespace as `findPotentialAddressParts` does with
`match.replace(/CA:?\s*/, "")`) together with the rest of the input
after the full match. -/
def caTryAt : List Char → Option (List Char × List Char)
  | 'C' :: 'A' :: rest =>
    let rest1 := match rest with
      | ':' :: r => r
      | _ => rest
    let rest2 := rest1.dropWhile isJsSpace
    let run := rest2.takeWhile isBase58Char
    if 3 ≤ run.length then
      some (run.take 44, rest2.drop (run.take 44).length)
    else none
  | _ => none

def caMatchesFuel : Nat → List Char → List (List Char)
  | 0, _ => []
  | _, [] => []
  | fuel + 1, c :: cs =>
    match caTryAt (c :: cs) with
    | some (part, rest) => part :: caMatchesFuel fuel rest
    | none => caMatchesFuel fuel cs

/-- The address parts produced by the `caMatches` loop of
`findPotentialAddressParts` (part_001 lines 678–684). -/
def caMatches (l : List Char) : List (List Char) :=
  caMatchesFuel l.length l

/-- Word-bounded containment test `/\bw\b/.test(text)` for a fixed
word `w` that starts and ends with word characters (such as `pump`). -/
def hasWordBoundedFuel (w : List Char) : Nat → Option Char → List Char → Bool
  | 0, _, _ => false
  | _, _, [] => false
  | fuel + 1, prev, c :: cs =>
    (leftBoundary prev && w.isPrefixOf (c :: cs) &&
      rightBoundary ((c :: cs).drop w.length)) ||
      hasWordBoundedFuel w fuel (some c) cs

def hasWordBounded (w : List Char) (l : List Char) : Bool :=
  hasWordBoundedFuel w l.length none l

/-- First match of `/\bMSNJn(pump)?\b/` (part_001 line 690): at each
word-bounded position try the greedy alternative `MSNJnpump` first,
then `MSNJn`. -/
def msnjnFindFuel : Nat → Option Char → List Char → Option (List Char)
  | 0, _, _ => none
  | _, _, [] => none
  | fuel + 1, prev, c :: cs =>
    if leftBoundary prev && "MSNJnpump".data.isPrefixOf (c :: cs) &&
        rightBoundary ((c :: cs).drop 9) then
      some "MSNJnpump".data
    else if leftBoundary prev && "MSNJn".data.isPrefixOf (c :: cs) &&
        rightBoundary ((c :: cs).drop 5) then
      some "MSNJn".data
    else msnjnFindFuel fuel (some c) cs

def msnjnFind (l : List Char) : Option (List Char) :=
  msnjnFindFuel l.length none l

/-- `addressPart.endsWith("pump")`. -/
def endsWithPump (l : List Char) : Bool :=
  "pump".data.isSuffixOf l

/-- One entry of the `parts` array built by `findPotentialAddressParts`
(part_001 lines 676–701). -/
structure AddressPart where
  text : String
  type : String
  isPumpEnding : Bool
deriving DecidableEq, Repr

/-- `findPotentialAddressParts(text)` (part_001 lines 676–701): `CA:`
marker parts, the fixed `pump` suffix marker, the `MSNJn(pump)?` suffix
marker, and word-bounded 10–44 character alphabet fragments, in source
order. -/
def findPotentialAddressParts (text : String) : List AddressPart :=
  ((caMatches text.data).map (fun part =>
    { text := String.mk part, type := "ca_prefix",
      isPumpEnding := endsWithPump part })) ++
  (if hasWordBounded "pump".data text.data then
    [{ text := "pump", type := "pump_suffix", isPumpEnding := true }]
  else []) ++
  (match msnjnFind text.data with
   | some m => [{ text := String.mk m, type := "msnjn_suffix", isPumpEnding := true }]
   | none => []) ++
  ((boundedRuns 10 44 text.data).map (fun r =>
    { text := String.mk r, type := "fragment", isPumpEnding := endsWithPump r }))

/-! ## Fragment × suffix combination
(`checkForSolanaAddresses`, part_001 lines 1017–1031) -/

/-- The combined length/alphabet check applied to every recombined
candidate (`combined.length >= 32 && combined.length <= 44 &&
/^[1-9A-HJ-NP-Za-km-z]{32,44}$/.test(combined)`, part_001 lines 897,
1024). -/
def isValidCandidate (c : String) : Bool :=
  32 ≤ c.length && c.length ≤ 44 && c.data.all isBase58Char

/-- The non-suffix fragments:
`addressParts.filter(p => p.type === 'fragment' && !p.isPumpEnding)`
(part_001 line 1018). -/
def fragmentParts (text : String) : List AddressPart :=
  (findPotentialAddressParts text).filter
    (fun p => p.type == "fragment" && !p.isPumpEnding)

/-- The suffix-tagged parts: `addressParts.filter(p => p.isPumpEnding ||
p.type === 'pump_suffix' || p.type === 'msnjn_suffix')`
(part_001 line 1019). -/
def suffixParts (text : String) : List AddressPart :=
  (findPotentialAddressParts text).filter
    (fun p => p.isPumpEnding || p.type == "pump_suffix" || p.type == "msnjn_suffix")

/-- The concatenation step (part_001 line 1023):
`fragment.text + (fragment.text.endsWith(suffix.text.substring(0, 3)) ?
suffix.text.substring(3) : suffix.text)` — if the fragment already ends
with the first three characters of the suffix, append only the remainder
of the suffix, else append the suffix in full (character-level, all the
involved strings are ASCII). -/
def combineFragSuffix (frag sfx : String) : String :=
  if (sfx.data.take 3).isSuffixOf frag.data then
    frag ++ String.mk (sfx.data.drop 3)
  else frag ++ sfx

/-- The candidates handed to `processAddress` by the fragment × suffix
loop (part_001 lines 1021–1031): every fragment–suffix combination, in
loop order, that passes the length/alphabet check. -/
def fragmentSuffixCandidates (text : String) : List String :=
  (fragmentParts text).flatMap (fun f =>
    (suffixParts text).filterMap (fun s =>
      if isValidCandidate (combineFragSuffix f.text s.text) then
        some (combineFragSuffix f.text s.text)
      else none))

lemma combineFragSuffix_eq (f s : String) :
    ((s.data.take 3).isSuffixOf f.data = true ∧
      combineFragSuffix f s = f ++ String.mk (s.data.drop 3)) ∨
    ((s.data.take 3).isSuffixOf f.data = false ∧
      combineFragSuffix f s = f ++ s) := by
  unfold combineFragSuffix
  cases he : (s.data.take 3).isSuffixOf f.data
  · exact Or.inr ⟨rfl, by rw [if_neg (by simp [he])]⟩
  · exact Or.inl ⟨rfl, by rw [if_pos (by simp [he])]⟩

/-- C7: a string is emitted by the fragment × suffix stage exactly when
it arises from a non-suffix fragment and a suffix-tagged part found in
the same message text by concatenating the non-overlapping remainder of
the suffix (when the fragment's trailing characters already carry the
suffix's three leading characters) or the full suffix (otherwise), and
it has valid length and alphabet. -/
theorem c7_fragment_suffix_combination (text c : String) :
    c ∈ fragmentSuffixCandidates text ↔
      ∃ f ∈ fragmentParts text, ∃ s ∈ suffixParts text,
        (((s.text.data.take 3).isSuffixOf f.text.data = true ∧
            c = f.text ++ String.mk (s.text.data.drop 3)) ∨
         ((s.text.data.take 3).isSuffixOf f.text.data = false ∧
            c = f.text ++ s.text)) ∧
        isValidCandidate c = true := by
  unfold fragmentSuffixCandidates
  rw [List.mem_flatMap]
  constructor
  · rintro ⟨f, hf, hc⟩
    rw [List.mem_filterMap] at hc
    obtain ⟨s, hs, hcs⟩ := hc
    by_cases hv : isValidCandidate (combineFragSuffix f.text s.text) = true
    · rw [if_pos hv] at hcs
      injection hcs with hcs
      subst hcs
      refine ⟨f, hf, s, hs, ?_, hv⟩
      rcases combineFragSuffix_eq f.text s.text with ⟨he, heq⟩ | ⟨he, heq⟩
      · exact Or.inl ⟨he, heq⟩
      · exact Or.inr ⟨he, heq⟩
    · rw [if_neg hv] at hcs
      cases hcs
  · rintro ⟨f, hf, s, hs, hcomb, hv⟩
    have hc : combineFragSuffix f.text s.text = c := by
      rcases combineFragSuffix_eq f.text s.text with ⟨he, heq⟩ | ⟨he, heq⟩ <;>
        rcases hcomb with ⟨he2, heq2⟩ | ⟨he2, heq2⟩ <;>
          first
            | exact heq.trans heq2.symm
            | (rw [he] at he2; cases he2)
    refine ⟨f, hf, ?_⟩
    rw [List.mem_filterMap]
    exact ⟨s, hs, by rw [hc, if_pos (hc ▸ hv)]⟩

set_option maxHeartbeats 2000000 in
/-- Witness for C7: in the message
`"CA: 4TMGdUxhLX8XG6CfdZBAgrfTUabc pump"` the 28-character fragment
combines with the word-bounded `pump` suffix (no 3-character overlap, so
the suffix is appended in full) into a valid 32-character candidate,
which is exactly what the stage emits. -/
theorem c7_fragment_suffix_witness :
    "4TMGdUxhLX8XG6CfdZBAgrfTUabcpump" ∈
      fragmentSuffixCandidates "CA: 4TMGdUxhLX8XG6CfdZBAgrfTUabc pump" := by
  refine (c7_fragment_suffix_combination "CA: 4TMGdUxhLX8XG6CfdZBAgrfTUabc pump"
    "4TMGdUxhLX8XG6CfdZBAgrfTUabcpump").mpr
    ⟨{ text := "4TMGdUxhLX8XG6CfdZBAgrfTUabc", type := "fragment", isPumpEnding := false },
      by decide,
      { text := "pump", type := "pump_suffix", isPumpEnding := true },
      by decide, Or.inr ⟨by decide, by decide⟩, by decide⟩

/-! ## Timestamp cleaning (`cleanMessageText`, part_001 lines 617–625)

`text.replace(/Today at \d+:\d+\s*[AP]M/g, "")
    .replace(/\d+:\d+\s*[AP]M/g, "")
    .replace(/Yesterday at \d+:\d+/g, "")
    .replace(/\[\d+:\d+\s*[AP]M\]/g, "")
    .trim()`
modelled by four left-to-right global replace scans followed by a trim.
Each pattern starts with a mandatory character, so every match consumes
at least one character and the fuel (initialised to the input length)
never runs out. -/

/-- Consume an exact literal prefix. -/
def eatLit : List Char → List Char → Option (List Char)
  | [], l => some l
  | _ :: _, [] => none
  | p :: ps, c :: cs => if c = p then eatLit ps cs else none

/-- Consume `\d+` (greedy, at least one digit). -/
def eatDigits1 : List Char → Option (List Char)
  | [] => none
  | c :: cs => if isJsDigit c then some (cs.dropWhile isJsDigit) else none

/-- Consume one exact character. -/
def eatChar (ch : Char) : List Char → Option (List Char)
  | [] => none
  | c :: cs => if c = ch then some cs else none

/-- Consume `[AP]`. -/
def eatAP : List Char → Option (List Char)
  | [] => none
  | c :: cs => if c = 'A' || c = 'P' then some cs else none

/-- Match `/Today at \d+:\d+\s*[AP]M/` at the head of the input. -/
def matchTodayAt (l : List Char) : Option (List Char) :=
  (eatLit "Today at ".data l).bind fun l1 =>
  (eatDigits1 l1).bind fun l2 =>
  (eatChar ':' l2).bind fun l3 =>
  (eatDigits1 l3).bind fun l4 =>
  (eatAP (l4.dropWhile isJsSpace)).bind fun l5 =>
  eatChar 'M' l5

/-- Match `/\d+:\d+\s*[AP]M/` at the head of the input. -/
def matchTime (l : List Char) : Option (List Char) :=
  (eatDigits1 l).bind fun l1 =>
  (eatChar ':' l1).bind fun l2 =>
  (eatDigits1 l2).bind fun l3 =>
  (eatAP (l3.dropWhile isJsSpace)).bind fun l4 =>
  eatChar 'M' l4

/-- Match `/Yesterday at \d+:\d+/` at the head of the input. -/
def matchYesterdayAt (l : List Char) : Option (List Char) :=
  (eatLit "Yesterday at ".data l).bind fun l1 =>
  (eatDigits1 l1).bind fun l2 =>
  (eatChar ':' l2).bind fun l3 =>
  eatDigits1 l3

/-- Match `/\[\d+:\d+\s*[AP]M\]/` at the head of the input. -/
def matchBracketTime (l : List Char) : Option (List Char) :=
  (eatChar '[' l).bind fun l1 =>
  (eatDigits1 l1).bind fun l2 =>
  (eatChar ':' l2).bind fun l3 =>
  (eatDigits1 l3).bind fun l4 =>
  (eatAP (l4.dropWhile isJsSpace)).bind fun l5 =>
  (eatChar 'M' l5).bind fun l6 =>
  eatChar ']' l6

/-- Global replace-with-empty: scan left to right, delete each match,
continue after it; copy non-matching characters. -/
def replaceScanFuel (m : List Char → Option (List Char)) :
    Nat → List Char → List Char
  | 0, l => l
  | _, [] => []
  | fuel + 1, c :: cs =>
    match m (c :: cs) with
    | some rest => replaceScanFuel m fuel rest
    | none => c :: replaceScanFuel m fuel cs

def replaceAllPat (m : List Char → Option (List Char)) (s : String) : String :=
  String.mk (replaceScanFuel m s.data.length s.data)

/-- `String.prototype.trim`. -/
def jsTrim (s : String) : String :=
  String.mk (((s.data.dropWhile isJsSpace).reverse.dropWhile isJsSpace).reverse)

/-- `cleanMessageText(text)` (part_001 lines 617–625). The source's
`if (!text) return ""` guard is the `""` case, on which the pipeline
returns `""` as well. -/
def cleanMessageText (text : String) : String :=
  jsTrim (replaceAllPat matchBracketTime
    (replaceAllPat matchYesterdayAt
      (replaceAllPat matchTime
        (replaceAllPat matchTodayAt text))))

/-! ## Time buffer and ingestion
(`RECENT_MESSAGES_BUFFER` / `addToMessageBuffer`, part_001 lines 22–24
and 1323–1347; `checkForSolanaAddresses`, lines 949–1059;
`checkSequentialMessages`, lines 872–943) -/

/-- One buffered message: its cleaned text and arrival timestamp
(milliseconds). -/
structure BufferedMsg where
  text : String
  timestamp : Nat
deriving DecidableEq, Repr

/-- `addToMessageBuffer(text, element)` (part_001 lines 1323–1347):
push the message, drop the oldest entry when the size exceeds
`MAX_BUFFER_SIZE = 20`, then lazily evict entries older than
`BUFFER_TIME_WINDOW_MS = 10000` from the front. -/
def addToMessageBuffer (buf : List BufferedMsg) (text : String) (now : Nat) :
    List BufferedMsg :=
  let b1 := buf ++ [{ text := text, timestamp := now }]
  let b2 := if b1.length > 20 then b1.drop 1 else b1
  b2.dropWhile (fun e => 10000 < now - e.timestamp)

/-- The pair of texts examined by `checkSequentialMessages` (part_001
lines 876–877): the second-newest and newest buffered messages, present
only when at least two messages are buffered — the sequential check is
triggered by `addToMessageBuffer` exactly in that case (line 1344). -/
def bufferPair (buf : List BufferedMsg) : Option (String × String) :=
  if 2 ≤ buf.length then
    match buf.dropLast.getLast?, buf.getLast? with
    | some m1, some m2 => some (m1.text, m2.text)
    | _, _ => none
  else none

/-- The deterministic candidates emitted by `checkSequentialMessages`
(part_001 lines 885–920): alphabet fragments (length ≥ 5) of the two
most recent buffered messages, combined in both orders, keeping the
valid-length/alphabet results and skipping the reversed order when it
produces the identical string. -/
def seqPairCandidates (message1 message2 : String) : List String :=
  (frags5 message1).flatMap (fun fragment1 =>
    (frags5 message2).flatMap (fun fragment2 =>
      (if isValidCandidate (fragment1 ++ fragment2) then
        [fragment1 ++ fragment2] else []) ++
      (if fragment2 ++ fragment1 ≠ fragment1 ++ fragment2 &&
          isValidCandidate (fragment2 ++ fragment1) then
        [fragment2 ++ fragment1] else [])))

/-- The candidates of the sequential check for an optional pair. -/
def seqCandidatesOf : Option (String × String) → List String
  | some (m1, m2) => seqPairCandidates m1 m2
  | none => []

/-- The mutable scanner state touched by ingestion: the sliding window
(`messageWindow`, newest first), the time buffer
(`RECENT_MESSAGES_BUFFER`, oldest first), and the processed-message-id
set (`processedMessageIds`). -/
structure ScannerState where
  messageWindow : List String
  recentBuffer : List BufferedMsg
  processedMessageIds : List String
deriving DecidableEq, Repr

/-- What one call of `checkForSolanaAddresses` did: the state after the
call, the sequential pair checked as a side effect of the buffer
insertion (with its deterministic candidates), and whether the
per-message extraction section after the duplicate-id check ran. -/
structure IngestResult where
  state : ScannerState
  seqCheckPair : Option (String × String)
  seqCandidates : List String
  extractionRan : Bool
deriving DecidableEq, Repr

/-- The ingestion prefix of `checkForSolanaAddresses(text, element)`
(part_001 lines 949–966): guard on missing/short text, clean, insert
into the time buffer (triggering the sequential-pair check), insert into
the sliding window, then skip the rest for already-processed message
ids. `text = none` models a falsy `text` argument. -/
def checkForSolanaAddresses (st : ScannerState) (now : Nat)
    (text : Option String) (messageId : String) : IngestResult :=
  match text with
  | none => ⟨st, none, [], false⟩
  | some t =>
    if t.length < 5 then ⟨st, none, [], false⟩
    else
      if cleanMessageText t = "" then ⟨st, none, [], false⟩
      else
        let cleaned := cleanMessageText t
        let buf := addToMessageBuffer st.recentBuffer cleaned now
        let pair := bufferPair buf
        let cands := seqCandidatesOf pair
        let window := insertWindow st.messageWindow cleaned
        if messageId ∈ st.processedMessageIds then
          ⟨⟨window, buf, st.processedMessageIds⟩, pair, cands, false⟩
        else
          ⟨⟨window, buf, messageId :: st.processedMessageIds⟩, pair, cands, true⟩

/-- C9: for every incoming message whose text is absent (falsy), or
shorter than 5 characters, or whose timestamp-cleaned text is empty,
ingestion returns immediately: the sliding window, the time buffer and
the processed-id set are untouched, no sequential check is triggered and
no candidate is produced — so a standalone suffix-only message such as
`"pump"` (4 characters) never enters the reconstruction context. -/
theorem c9_guarded_ingestion_is_noop (st : ScannerState) (now : Nat)
    (messageId : String) (text : Option String)
    (h : text = none ∨
      ∃ t, text = some t ∧ (t.length < 5 ∨ cleanMessageText t = "")) :
    checkForSolanaAddresses st now text messageId = ⟨st, none, [], false⟩ := by
  rcases h with rfl | ⟨t, rfl, h5 | hclean⟩
  · rfl
  · simp only [checkForSolanaAddresses]
    rw [if_pos h5]
  · simp only [checkForSolanaAddresses]
    by_cases h5 : t.length < 5
    · rw [if_pos h5]
    · rw [if_neg h5, if_pos hclean]

/-- Witness for C9: the standalone message `"pump"` (length 4) leaves an
empty scanner state untouched and produces nothing. -/
theorem c9_guarded_ingestion_witness :
    checkForSolanaAddresses ⟨[], [], []⟩ 0 (some "pump") "m1" =
      ⟨⟨[], [], []⟩, none, [], false⟩ ∧ "pump".length < 5 :=
  ⟨c9_guarded_ingestion_is_noop ⟨[], [], []⟩ 0 "m1" (some "pump")
    (Or.inr ⟨"pump", rfl, Or.inl (by decide)⟩), by decide⟩

set_option maxHeartbeats 2000000 in
/-- C10: duplicate delivery of a message whose id was already processed
still mutates shared state, because the buffer and window insertions
precede the duplicate-id check. First part: for every state, such a
message is inserted again into both the sliding window and the time
buffer, the insertion re-triggers the sequential-pair check on the two
most recent buffered entries, and only the per-message extraction after
the id check is skipped (`extractionRan = false`), the processed-id set
staying as it was. Second part (concrete double delivery): ingesting the
18-character message `"abcdefghJKLMNPQRST"` twice under the same id
leaves two copies of it as the two most recent buffered entries, makes
the re-triggered sequential check examine the pair of the two copies,
and forms the self-combination candidate `t ++ t` from the message's own
fragment, while the second delivery's extraction is skipped. -/
theorem c10_duplicate_delivery_mutates_state :
    (∀ (st : ScannerState) (now : Nat) (t messageId : String),
      ¬t.length < 5 → cleanMessageText t ≠ "" →
      messageId ∈ st.processedMessageIds →
      checkForSolanaAddresses st now (some t) messageId =
        ⟨⟨insertWindow st.messageWindow (cleanMessageText t),
          addToMessageBuffer st.recentBuffer (cleanMessageText t) now,
          st.processedMessageIds⟩,
         bufferPair (addToMessageBuffer st.recentBuffer (cleanMessageText t) now),
         seqCandidatesOf
           (bufferPair (addToMessageBuffer st.recentBuffer (cleanMessageText t) now)),
         false⟩) ∧
    ((checkForSolanaAddresses
        (checkForSolanaAddresses ⟨[], [], []⟩ 0
          (some "abcdefghJKLMNPQRST") "id1").state 0
        (some "abcdefghJKLMNPQRST") "id1").state.recentBuffer =
      [⟨"abcdefghJKLMNPQRST", 0⟩, ⟨"abcdefghJKLMNPQRST", 0⟩] ∧
     (checkForSolanaAddresses
        (checkForSolanaAddresses ⟨[], [], []⟩ 0
          (some "abcdefghJKLMNPQRST") "id1").state 0
        (some "abcdefghJKLMNPQRST") "id1").seqCheckPair =
      some ("abcdefghJKLMNPQRST", "abcdefghJKLMNPQRST") ∧
     "abcdefghJKLMNPQRSTabcdefghJKLMNPQRST" ∈
      (checkForSolanaAddresses
        (checkForSolanaAddresses ⟨[], [], []⟩ 0
          (some "abcdefghJKLMNPQRST") "id1").state 0
        (some "abcdefghJKLMNPQRST") "id1").seqCandidates ∧
     (checkForSolanaAddresses
        (checkForSolanaAddresses ⟨[], [], []⟩ 0
          (some "abcdefghJKLMNPQRST") "id1").state 0
        (some "abcdefghJKLMNPQRST") "id1").extractionRan = false) := by
  constructor
  · intro st now t messageId h5 hclean hid
    simp only [checkForSolanaAddresses]
    rw [if_neg h5, if_neg hclean, if_pos hid]
  · exact ⟨by decide, by decide, by decide, by decide⟩

/-- Witness for C10: the duplicate-path equation evaluated at a concrete
one-message state — the buffer gains the duplicate copy, the pair of the
two copies is checked, and extraction is skipped. -/
theorem c10_duplicate_delivery_witness :
    checkForSolanaAddresses
      ⟨["abcdefghJKLMNPQRST"], [⟨"abcdefghJKLMNPQRST", 0⟩], ["id1"]⟩ 0
      (some "abcdefghJKLMNPQRST") "id1" =
      ⟨⟨["abcdefghJKLMNPQRST", "abcdefghJKLMNPQRST"],
        [⟨"abcdefghJKLMNPQRST", 0⟩, ⟨"abcdefghJKLMNPQRST", 0⟩],
        ["id1"]⟩,
       some ("abcdefghJKLMNPQRST", "abcdefghJKLMNPQRST"),
       ["abcdefghJKLMNPQRSTabcdefghJKLMNPQRST"],
       false⟩ :=
  (c10_duplicate_delivery_mutates_state.1
    ⟨["abcdefghJKLMNPQRST"], [⟨"abcdefghJKLMNPQRST", 0⟩], ["id1"]⟩ 0
    "abcdefghJKLMNPQRST" "id1" (by decide) (by decide) (by decide)).trans
    (by decide)

/-! ## AI-assisted reconstruction fallback
(`checkForSolanaAddresses`, part_001 lines 1033–1056;
`detectSplitAddressesWithAI`, lines 630–671; the mutable global
`aiPrompt`, lines 1349–1359)

The OpenAI call is abstracted as `respond : String → List String`, the
raw response lines as a function of the system prompt sent; the
downstream verification of a processed candidate is abstracted as
`verif : String → Bool`. -/

/-- Boolean contiguous-sublist test. -/
def listIsInfix (pat : List Char) : List Char → Bool
  | [] => pat.isEmpty
  | c :: cs => pat.isPrefixOf (c :: cs) || listIsInfix pat cs

/-- `String.prototype.includes` (contiguous substring test). -/
def stringIncludes (s pat : String) : Bool :=
  listIsInfix pat.data s.data

/-- The pump-suffix adjustment applied to every AI candidate (part_001
lines 1039–1041): append `"pump"` when the message mentions pump and the
candidate does not already end with it. -/
def adjustPump (cleanedText address : String) : String :=
  if stringIncludes cleanedText "pump" && !endsWithPump address.data then
    address ++ "pump"
  else address

/-- `detectSplitAddressesWithAI(text, prompt, model)` (part_001 lines
630–671) without the network: returns nothing for texts shorter than 20
characters, otherwise filters the response lines to the 32–44
length/alphabet class. -/
def detectSplitAddresses (text : String) (lines : List String) : List String :=
  if text.length < 20 then []
  else lines.filter (fun addr =>
    32 ≤ addr.length && addr.length ≤ 44 && addr.data.all isBase58Char)

/-- The escalation text appended to the global prompt after a failed
attempt (part_001 line 1052). -/
def escalationText (partials : List String) : String :=
  " IMPORTANT: Previous reconstructions were incorrect. Try different combinations including parts like \x27" ++
  String.intercalate "\x27, \x27" partials ++
  "\x27 to form a valid Solana address."

/-- The prompt used by the next attempt (part_001 lines 1049–1054): the
current global prompt, extended with the escalation text when the message
has 5–10 character partial fragments. -/
def nextPrompt (cleanedText prompt : String) : String :=
  if (partials510 cleanedText).isEmpty then prompt
  else prompt ++ escalationText (partials510 cleanedText)

/-- The retry loop `while (!foundVerifiedAddress && maxAttempts > 0)`
(part_001 lines 1034–1056), fuelled by `maxAttempts`. Returns the global
`aiPrompt` value after the loop, the number of AI attempts made, and
whether a verified address was found: the loop breaks when the provider
returns no usable candidate, stops on the first verified candidate, and
otherwise escalates the prompt and decrements `maxAttempts`. -/
def aiRetryLoop (cleanedText : String) (respond : String → List String)
    (verif : String → Bool) : Nat → String → String × Nat × Bool
  | 0, prompt => (prompt, 0, false)
  | fuel + 1, prompt =>
    if (detectSplitAddresses cleanedText (respond prompt)).isEmpty then
      (prompt, 1, false)
    else if ((detectSplitAddresses cleanedText (respond prompt)).map
        (adjustPump cleanedText)).any verif then
      (prompt, 1, true)
    else
      ((aiRetryLoop cleanedText respond verif fuel (nextPrompt cleanedText prompt)).1,
       (aiRetryLoop cleanedText respond verif fuel (nextPrompt cleanedText prompt)).2.1 + 1,
       (aiRetryLoop cleanedText respond verif fuel (nextPrompt cleanedText prompt)).2.2)

/-- The fallback as invoked per triggering message, with
`maxAttempts = 3` (part_001 line 1034), starting from — and writing back —
the process-wide global `aiPrompt`. -/
def runAIFallback (cleanedText : String) (respond : String → List String)
    (verif : String → Bool) (globalPrompt : String) : String × Nat × Bool :=
  aiRetryLoop cleanedText respond verif 3 globalPrompt

/-- The initial value of the mutable global prompt `aiPrompt`
(part_001 lines 1350–1359). -/
def aiPrompt : String :=
  "You are a specialized AI that identifies Solana token addresses in text. " ++
  "Solana addresses are base58 encoded strings (32-44 characters) containing only " ++
  "characters from 1-9, A-H, J-N, P-Z, a-k, m-z. " ++
  "IMPORTANT PATTERNS: " ++
  "1. Many addresses end with \x27pump\x27, \x27MSNJn\x27, \x27MSNJnpump\x27, or similar suffixes. " ++
  "2. Addresses are often split very unevenly. " ++
  "3. Sometimes only a small part like \x27pump\x27 is on a separate line. " ++
  "4. Addresses often appear after \x27CA:\x27. " ++
  "Respond with ONLY the complete reconstructed addresses, one per line, nothing else."

lemma aiRetryLoop_attempts_le (cleanedText : String)
    (respond : String → List String) (verif : String → Bool) :
    ∀ (fuel : Nat) (prompt : String),
      (aiRetryLoop cleanedText respond verif fuel prompt).2.1 ≤ fuel := by
  intro fuel
  induction fuel with
  | zero => intro prompt; exact Nat.le_refl 0
  | succ n ih =>
    intro prompt
    simp only [aiRetryLoop]
    split
    · simp
    · split
      · simp
      · have := ih (nextPrompt cleanedText prompt)
        simp
        omega

set_option maxHeartbeats 1000000 in
set_option maxRecDepth 4096 in
/-- C6: evaluation of the AI-assisted fallback at a failing input. First
part: the fallback makes at most 3 attempts per triggering message.
Second part: a concrete triggering message (a 20-character fragment
message whose provider response is a well-formed but never-verifying
candidate) uses all 3 attempts and leaves the process-wide global
`aiPrompt` permanently extended by three escalation suffixes — so the
prompt used by every later triggering message's first attempt differs
from the initial prompt, contradicting the claimed per-message scoping
of the retry/escalation prompt state. -/
theorem c6_prompt_escalation_is_global :
    (∀ (cleanedText : String) (respond : String → List String)
      (verif : String → Bool) (globalPrompt : String),
      (runAIFallback cleanedText respond verif globalPrompt).2.1 ≤ 3) ∧
    ((runAIFallback "abcdefghijkmnopqrstu"
        (fun _ => ["J1111111111111111111111111111111"]) (fun _ => false)
        aiPrompt).2.1 = 3 ∧
     (runAIFallback "abcdefghijkmnopqrstu"
        (fun _ => ["J1111111111111111111111111111111"]) (fun _ => false)
        aiPrompt).1 =
      aiPrompt ++ escalationText (partials510 "abcdefghijkmnopqrstu") ++
        escalationText (partials510 "abcdefghijkmnopqrstu") ++
        escalationText (partials510 "abcdefghijkmnopqrstu") ∧
     (runAIFallback "abcdefghijkmnopqrstu"
        (fun _ => ["J1111111111111111111111111111111"]) (fun _ => false)
        aiPrompt).1 ≠ aiPrompt) := by
  refine ⟨fun cleanedText respond verif globalPrompt =>
    aiRetryLoop_attempts_le cleanedText respond verif 3 globalPrompt,
    by decide, by decide, by decide⟩

/-- Witness for C6: the attempts bound applied at the concrete failing
input — exactly 3 attempts were made, within the bound. -/
theorem c6_prompt_escalation_witness :
    (runAIFallback "abcdefghijkmnopqrstu"
      (fun _ => ["J1111111111111111111111111111111"]) (fun _ => false)
      aiPrompt).2.1 ≤ 3 :=
  c6_prompt_escalation_is_global.1 "abcdefghijkmnopqrstu"
    (fun _ => ["J1111111111111111111111111111111"]) (fun _ => false) aiPrompt
